import Mathlib

/-!
# Census population fetcher: a shallow embedding of `main.go`

The program fetches state and county population rows from a statistical API,
normalises them into `Location` records and writes them to a CSV file.

Strings decoded by `json.Unmarshal` are valid UTF-8, so a Go string is modelled
by a Lean `String` (a list of Unicode scalar values).  Network and file system
are explicit parameters; the HTTP requests issued, the lines printed and the
file written are carried in an explicit record of the run.
-/

namespace Census

/-! ## Data model -/

/-- The `Location` struct of `main.go`; its field `Type` is written `Type_`, as
`Type` is reserved. -/
structure Location where
  GeoID : String
  Name : String
  Type_ : String
  Population : String
deriving DecidableEq, Repr

/-- What a Go call can do: return a value, return a non-nil `error`, or
end the process with a run-time panic. -/
inductive Outcome (α : Type) where
  | ok (v : α)
  | err (e : String)
  | crash (msg : String)
deriving DecidableEq, Repr

/-- The constant `censusAPIBase`. -/
def censusAPIBase : String := "https://api.census.gov/data/2021/acs/acs5"

/-! ## The network

`http.Get`, `io.ReadAll` and `json.Unmarshal` into a `[][]string` are taken
together: the `n`-th request of a run (counted from 0) to a URL either gives an
error (transport or decoding) or the decoded two-dimensional string array. -/

/-- The remote service together with the decoding of its answers. -/
structure Net where
  respond : Nat → String → Except String (List (List String))

/-! ## `make` -/

/-- The built-in `make([]Location, 0, c)`: a run-time panic when the capacity is
negative, else the empty slice. -/
def makeLocations (c : Int) : Outcome (List Location) :=
  if c < 0 then .crash "runtime error: makeslice: cap out of range" else .ok []

/-! ## `strings.TrimSpace` (Go standard library) -/

/-- The table `asciiSpace` of package `strings`. -/
def asciiSpace (c : Char) : Bool :=
  c = '\t' || c = '\n' || c = Char.ofNat 0x0B || c = Char.ofNat 0x0C || c = '\r' || c = ' '

/-- The predicate `unicode.IsSpace`: the Latin-1 spaces and the code points with
the Unicode property White_Space. -/
def IsSpace (c : Char) : Bool :=
  let n := c.toNat
  if n ≤ 0xFF then
    n = 0x09 || n = 0x0A || n = 0x0B || n = 0x0C || n = 0x0D || n = 0x20 || n = 0x85 || n = 0xA0
  else
    n = 0x1680 || (0x2000 ≤ n && n ≤ 0x200A) || n = 0x2028 || n = 0x2029 || n = 0x202F
      || n = 0x205F || n = 0x3000

/-- The function `strings.TrimLeftFunc` on the code points of a string. -/
def TrimLeftFunc (f : Char → Bool) (s : List Char) : List Char :=
  s.dropWhile f

/-- The function `strings.TrimRightFunc` on the code points of a string. -/
def TrimRightFunc (f : Char → Bool) (s : List Char) : List Char :=
  (s.reverse.dropWhile f).reverse

/-- The function `strings.TrimFunc`. -/
def TrimFunc (f : Char → Bool) (s : List Char) : List Char :=
  TrimRightFunc f (TrimLeftFunc f s)

/-- Second loop of `strings.TrimSpace`, run on the reversed remainder: scans from
the end; at a non-ASCII code point it hands over to `TrimRightFunc`. -/
def trimSpaceStop : List Char → List Char
  | [] => []
  | c :: r =>
    if c.toNat ≥ 0x80 then (TrimRightFunc IsSpace (c :: r).reverse).reverse
    else if asciiSpace c then trimSpaceStop r
    else c :: r

/-- First loop of `strings.TrimSpace`: scans from the start; at a non-ASCII code
point it hands over to `TrimFunc`, at an ASCII non-space it goes on to the
second loop. -/
def trimSpaceStart : List Char → List Char
  | [] => []
  | c :: r =>
    if c.toNat ≥ 0x80 then TrimFunc IsSpace (c :: r)
    else if asciiSpace c then trimSpaceStart r
    else (trimSpaceStop (c :: r).reverse).reverse

/-- The function `strings.TrimSpace`. -/
def TrimSpace (s : String) : String :=
  ⟨trimSpaceStart s.data⟩

/-! ## The two fetchers -/

/-- The loop of `fetchStates`: `for i := 1; i < len(data); i++`. -/
def fetchStatesLoop (data : List (List String)) (i : Nat) (locations : List Location) :
    List Location :=
  if h : i < data.length then
    if h3 : data[i].length < 3 then
      fetchStatesLoop data (i + 1) locations
    else
      fetchStatesLoop data (i + 1)
        (locations ++ [{ GeoID := data[i][2], Name := data[i][0], Type_ := "state",
                         Population := data[i][1] }])
  else locations
termination_by data.length - i

/-- The part of `fetchStates` after decoding: allocation and loop. -/
def statesOfData (data : List (List String)) : Outcome (List Location) :=
  match makeLocations ((data.length : Int) - 1) with
  | .ok locations => .ok (fetchStatesLoop data 1 locations)
  | .err e => .err e
  | .crash m => .crash m

/-- The URL requested by `fetchStates`. -/
def statesURL : String :=
  censusAPIBase ++ "?get=NAME,B01003_001E&for=state:*"

/-- The function `fetchStates`, as the `n`-th request of the run. -/
def fetchStates (net : Net) (n : Nat) : Outcome (List Location) :=
  match net.respond n statesURL with
  | .error e => .err e
  | .ok data => statesOfData data

/-- The loop of `fetchCounties`: `for i := 1; i < len(data); i++`. -/
def fetchCountiesLoop (data : List (List String)) (i : Nat) (locations : List Location) :
    List Location :=
  if h : i < data.length then
    if h4 : data[i].length < 4 then
      fetchCountiesLoop data (i + 1) locations
    else
      let geoID := data[i][2] ++ data[i][3]
      fetchCountiesLoop data (i + 1)
        (locations ++ [{ GeoID := geoID, Name := TrimSpace data[i][0], Type_ := "county",
                         Population := data[i][1] }])
  else locations
termination_by data.length - i

/-- The part of `fetchCounties` after decoding: allocation and loop. -/
def countiesOfData (data : List (List String)) : Outcome (List Location) :=
  match makeLocations ((data.length : Int) - 1) with
  | .ok locations => .ok (fetchCountiesLoop data 1 locations)
  | .err e => .err e
  | .crash m => .crash m

/-- The URL requested by `fetchCounties stateCode`. -/
def countiesURL (stateCode : String) : String :=
  censusAPIBase ++ "?get=NAME,B01003_001E&for=county:*&in=state:" ++ stateCode

/-- The function `fetchCounties`, as the `n`-th request of the run. -/
def fetchCounties (net : Net) (n : Nat) (stateCode : String) : Outcome (List Location) :=
  match net.respond n (countiesURL stateCode) with
  | .error e => .err e
  | .ok data => countiesOfData data

/-! ## `encoding/csv` (Go standard library): the writer

A `csv.NewWriter` has `Comma = ','` and `UseCRLF = false`.  The special
characters are ASCII, so the writer is given on code points. -/

/-- The method `fieldNeedsQuotes` of `csv.Writer`, for the comma `','`. -/
def fieldNeedsQuotes (field : String) : Bool :=
  if field = "" then false
  else if field = "\\." then true
  else if field.data.any (fun c => c = '\n' || c = '\r' || c = '"' || c = ',') then true
  else
    match field.data with
    | [] => false
    | r1 :: _ => IsSpace r1

/-- The inner loop of `csv.Writer.Write` on a field that needs quotes: text
without special characters is copied, a quote is doubled, a carriage return and
a line feed are written as they are (`UseCRLF` is false). -/
def writeQuoted : List Char → List Char
  | [] => []
  | c :: field =>
    (if c = '"' then ['"', '"']
     else if c = '\r' then ['\r']
     else if c = '\n' then ['\n']
     else [c]) ++ writeQuoted field

/-- What `csv.Writer.Write` emits for one field. -/
def writeField (field : String) : List Char :=
  if !fieldNeedsQuotes field then field.data
  else ['"'] ++ writeQuoted field.data ++ ['"']

/-- The loop `for n, field := range record` of `csv.Writer.Write`: a comma
before every field but the first. -/
def writeFields : Nat → List String → List Char
  | _, [] => []
  | n, field :: record =>
    (if n > 0 then [','] else []) ++ writeField field ++ writeFields (n + 1) record

/-- The method `csv.Writer.Write`: the fields, then a line feed. -/
def csvWrite (record : List String) : List Char :=
  writeFields 0 record ++ ['\n']

/-! ## `writeCSV` -/

/-- The file system: `create name` is the error of `os.Create name`, if any.
Writing to a file that was created is taken to succeed. -/
structure FS where
  create : String → Option String

/-- The loop `for _, loc := range locations` of `writeCSV`. -/
def writeRows : List Location → List Char
  | [] => []
  | loc :: locations =>
    csvWrite [loc.GeoID, loc.Name, loc.Type_, loc.Population] ++ writeRows locations

/-- The text that `writeCSV` sends through the `csv.Writer`: header, then rows. -/
def csvText (locations : List Location) : String :=
  ⟨csvWrite ["geoid", "name", "type", "population"] ++ writeRows locations⟩

/-- The function `writeCSV`: the error of `os.Create`, or the content of the file
after the deferred `Flush` and `Close`. -/
def writeCSV (fs : FS) (filename : String) (locations : List Location) : Except String String :=
  match fs.create filename with
  | some e => .error e
  | none => .ok (csvText locations)

/-! ## `main` -/

/-- The observable part of the process while it runs. -/
structure World where
  stdout : List String
  requests : List String

/-- A finished run of `main`: exit status, lines printed, URLs requested in
order, the slice handed to `writeCSV` (if it was called) and the content of
`census_population.csv` (if it was created). -/
structure Run where
  exitCode : Nat
  stdout : List String
  requests : List String
  written : Option (List Location)
  file : Option String

/-- The loop `for _, state := range states` of `main`; an error of
`fetchCounties` is reported and skipped, a panic ends the loop with its
message. -/
def countiesLoop (net : Net) : List Location → List Location → World →
    Except String (List Location) × World
  | [], locations, w => (.ok locations, w)
  | state :: states, locations, w =>
    let w1 : World := { w with requests := w.requests ++ [countiesURL state.GeoID] }
    match fetchCounties net w.requests.length state.GeoID with
    | .err e =>
      countiesLoop net states locations
        { w1 with stdout := w1.stdout ++
            ["Warning: Error fetching counties for " ++ state.Name ++ ": " ++ e ++ "\n"] }
    | .crash m => (.error m, w1)
    | .ok counties => countiesLoop net states (locations ++ counties) w1

/-- The function `main`.  `os.Exit(1)` gives exit status 1, a panic exit
status 2, the normal end exit status 0. -/
def main (net : Net) (fs : FS) : Run :=
  let out0 := ["Fetching US Census population data...\n"]
  let locations : List Location := []
  match fetchStates net 0 with
  | .err e =>
    { exitCode := 1, stdout := out0 ++ ["Error fetching states: " ++ e ++ "\n"],
      requests := [statesURL], written := none, file := none }
  | .crash _ =>
    { exitCode := 2, stdout := out0, requests := [statesURL], written := none, file := none }
  | .ok states =>
    let locations := locations ++ states
    let out1 := out0 ++ ["Fetched " ++ toString states.length ++ " states\n"]
    match countiesLoop net states locations { stdout := out1, requests := [statesURL] } with
    | (.error _, w) =>
      { exitCode := 2, stdout := w.stdout, requests := w.requests, written := none,
        file := none }
    | (.ok locations, w) =>
      let out2 := w.stdout ++ ["Total locations: " ++ toString locations.length ++ "\n"]
      match writeCSV fs "census_population.csv" locations with
      | .error e =>
        { exitCode := 1, stdout := out2 ++ ["Error writing CSV: " ++ e ++ "\n"],
          requests := w.requests, written := some locations, file := none }
      | .ok text =>
        { exitCode := 0,
          stdout := out2 ++ ["Successfully wrote data to census_population.csv\n"],
          requests := w.requests, written := some locations, file := some text }

/-! ## Reading CSV back (RFC 4180)

The reader against which the written text is checked: fields are separated by
commas, records end with a line feed (an optional carriage return before it is
dropped), a field that starts with a double quote runs to the closing quote, a
doubled quote inside it stands for one quote, everything else inside it,
commas and line breaks included, is kept as it is.  Blank lines are skipped. -/

/-- Where the reader is inside a record. -/
inductive ReadState where
  | fieldStart
  | unquoted
  | quoted
  | quoteEnd
deriving DecidableEq, Repr

/-- The reader: input left, state, the field read so far, the fields of the
current record, the records read so far. -/
def readCSVAux : List Char → ReadState → List Char → List String → List (List String) →
    Option (List (List String))
  | [], st, field, row, rows =>
    match st with
    | .quoted => none
    | .fieldStart => if row = [] then some rows else some (rows ++ [row ++ [""]])
    | _ => some (rows ++ [row ++ [String.mk field]])
  | c :: cs, st, field, row, rows =>
    match st with
    | .quoted =>
      if c = '"' then readCSVAux cs .quoteEnd field row rows
      else readCSVAux cs .quoted (field ++ [c]) row rows
    | .quoteEnd =>
      if c = '"' then readCSVAux cs .quoted (field ++ ['"']) row rows
      else if c = ',' then readCSVAux cs .fieldStart [] (row ++ [String.mk field]) rows
      else if c = '\n' then readCSVAux cs .fieldStart [] [] (rows ++ [row ++ [String.mk field]])
      else if c = '\r' ∧ cs.head? = some '\n' then readCSVAux cs .quoteEnd field row rows
      else none
    | .unquoted =>
      if c = ',' then readCSVAux cs .fieldStart [] (row ++ [String.mk field]) rows
      else if c = '\n' then readCSVAux cs .fieldStart [] [] (rows ++ [row ++ [String.mk field]])
      else if c = '\r' ∧ cs.head? = some '\n' then readCSVAux cs .unquoted field row rows
      else if c = '"' then none
      else readCSVAux cs .unquoted (field ++ [c]) row rows
    | .fieldStart =>
      if c = '"' then readCSVAux cs .quoted [] row rows
      else if c = ',' then readCSVAux cs .fieldStart [] (row ++ [""]) rows
      else if c = '\n' then
        if row = [] then readCSVAux cs .fieldStart [] [] rows
        else readCSVAux cs .fieldStart [] [] (rows ++ [row ++ [""]])
      else if c = '\r' ∧ cs.head? = some '\n' then readCSVAux cs .fieldStart [] row rows
      else readCSVAux cs .unquoted [c] row rows

/-- The records of a CSV text, or `none` when the text is not well formed. -/
def readCSV (text : String) : Option (List (List String)) :=
  readCSVAux text.data .fieldStart [] [] []

/-- The lines of a text: the pieces ended by a line feed, and the rest after
the last line feed when it is not empty. -/
def splitLines : List Char → List Char → List (List Char)
  | [], cur => if cur = [] then [] else [cur]
  | c :: cs, cur => if c = '\n' then cur :: splitLines cs [] else splitLines cs (cur ++ [c])

/-! ## Definitions used to state the properties -/

/-- The record `fetchStates` builds from a row of at least three columns. -/
def stateOfRow (row : List String) : Location :=
  { GeoID := row.getD 2 "", Name := row.getD 0 "", Type_ := "state", Population := row.getD 1 "" }

/-- The record `fetchCounties` builds from a row of at least four columns. -/
def countyOfRow (row : List String) : Location :=
  { GeoID := row.getD 2 "" ++ row.getD 3 "", Name := TrimSpace (row.getD 0 ""),
    Type_ := "county", Population := row.getD 1 "" }

/-- A network that answers every request with the same decoded array. -/
def constNet (data : List (List String)) : Net :=
  { respond := fun _ _ => .ok data }

/-- The records one county fetch adds to the output: those it returns, none when
it returns an error. -/
def countyRecords (net : Net) (n : Nat) (stateCode : String) : List Location :=
  match fetchCounties net n stateCode with
  | .ok counties => counties
  | _ => []

/-- A canned service: two states, one county for the first state, and an empty
array for the counties of the second. -/
def cannedNet : Net :=
  { respond := fun n _ =>
      match n with
      | 0 => .ok [["NAME", "B01003_001E", "state"], ["Alabama", "5000000", "01"],
                  ["Alaska", "700000", "02"]]
      | 1 => .ok [["NAME", "B01003_001E", "state", "county"],
                  ["Autauga County, Alabama", "55000", "01", "001"]]
      | _ => .ok [] }

/-- A file system on which every file can be created. -/
def okFS : FS := { create := fun _ => none }

/-- A service that cannot be reached. -/
def failNet : Net :=
  { respond := fun _ _ => .error "dial tcp: connection refused" }

/-- A county record whose name holds a comma. -/
def autauga : Location :=
  { GeoID := "01001", Name := "Autauga County, Alabama", Type_ := "county",
    Population := "55000" }

/-- A record with a leading space, double quotes, a line break, the field `\.`
and an empty field. -/
def awkward : Location :=
  { GeoID := " 7", Name := "say \"hi\"\r\nthere", Type_ := "\\.", Population := "" }

/-- A state record whose name holds a line feed. -/
def twoLines : Location :=
  { GeoID := "01", Name := "Ala\nbama", Type_ := "state", Population := "5000000" }

/-- A character that `csv.Writer` may leave outside quotes. -/
def plainChar (c : Char) : Bool :=
  !(c = '\n' || c = '\r' || c = '"' || c = ',')

/-- A record none of whose fields holds a line feed. -/
def singleLine (loc : Location) : Prop :=
  '\n' ∉ loc.GeoID.data ∧ '\n' ∉ loc.Name.data ∧ '\n' ∉ loc.Type_.data ∧
    '\n' ∉ loc.Population.data

instance (loc : Location) : Decidable (singleLine loc) := by
  unfold singleLine; infer_instance

/-! ## The fetch loops as filters -/

theorem fetchStatesLoop_eq (data : List (List String)) :
    ∀ (k i : Nat) (locations : List Location), data.length - i = k →
      fetchStatesLoop data i locations =
        locations ++
          ((data.drop i).filter (fun row => decide (3 ≤ row.length))).map stateOfRow := by
  intro k
  induction k with
  | zero =>
    intro i locations hk
    have hle : data.length ≤ i := by omega
    rw [fetchStatesLoop]
    simp [Nat.not_lt.mpr hle, List.drop_of_length_le hle]
  | succ k ih =>
    intro i locations hk
    have hlt : i < data.length := by omega
    rw [fetchStatesLoop, List.drop_eq_getElem_cons hlt, List.filter_cons]
    simp only [hlt, dite_true]
    by_cases h3 : data[i].length < 3
    · have h3' : ¬ (3 ≤ data[i].length) := by omega
      rw [dif_pos h3, ih (i + 1) locations (by omega), if_neg (by simpa using h3')]
    · have h3' : 3 ≤ data[i].length := by omega
      rw [dif_neg h3, ih (i + 1) _ (by omega), if_pos (by simpa using h3'), List.map_cons,
        List.append_assoc]
      simp only [stateOfRow, List.getD_eq_getElem _ _ (show 0 < data[i].length by omega),
        List.getD_eq_getElem _ _ (show 1 < data[i].length by omega),
        List.getD_eq_getElem _ _ (show 2 < data[i].length by omega), List.singleton_append]

theorem fetchCountiesLoop_eq (data : List (List String)) :
    ∀ (k i : Nat) (locations : List Location), data.length - i = k →
      fetchCountiesLoop data i locations =
        locations ++
          ((data.drop i).filter (fun row => decide (4 ≤ row.length))).map countyOfRow := by
  intro k
  induction k with
  | zero =>
    intro i locations hk
    have hle : data.length ≤ i := by omega
    rw [fetchCountiesLoop]
    simp [Nat.not_lt.mpr hle, List.drop_of_length_le hle]
  | succ k ih =>
    intro i locations hk
    have hlt : i < data.length := by omega
    rw [fetchCountiesLoop, List.drop_eq_getElem_cons hlt, List.filter_cons]
    simp only [hlt, dite_true]
    by_cases h4 : data[i].length < 4
    · have h4' : ¬ (4 ≤ data[i].length) := by omega
      rw [dif_pos h4, ih (i + 1) locations (by omega), if_neg (by simpa using h4')]
    · have h4' : 4 ≤ data[i].length := by omega
      rw [dif_neg h4, ih (i + 1) _ (by omega), if_pos (by simpa using h4'), List.map_cons,
        List.append_assoc]
      simp only [countyOfRow, List.getD_eq_getElem _ _ (show 0 < data[i].length by omega),
        List.getD_eq_getElem _ _ (show 1 < data[i].length by omega),
        List.getD_eq_getElem _ _ (show 2 < data[i].length by omega),
        List.getD_eq_getElem _ _ (show 3 < data[i].length by omega), List.singleton_append]

/-- With a header row in front, `fetchStates` does not panic and keeps the rows
of at least three columns. -/
theorem statesOfData_cons (header : List String) (rows : List (List String)) :
    statesOfData (header :: rows) =
      .ok ((rows.filter (fun row => decide (3 ≤ row.length))).map stateOfRow) := by
  have hc : ¬ (((header :: rows).length : Int) - 1 < 0) := by
    simp only [List.length_cons]; push_cast; omega
  simp only [statesOfData, makeLocations, if_neg hc]
  rw [fetchStatesLoop_eq (header :: rows) _ 1 [] rfl]
  simp

/-- With a header row in front, `fetchCounties` does not panic and keeps the rows
of at least four columns. -/
theorem countiesOfData_cons (header : List String) (rows : List (List String)) :
    countiesOfData (header :: rows) =
      .ok ((rows.filter (fun row => decide (4 ≤ row.length))).map countyOfRow) := by
  have hc : ¬ (((header :: rows).length : Int) - 1 < 0) := by
    simp only [List.length_cons]; push_cast; omega
  simp only [countiesOfData, makeLocations, if_neg hc]
  rw [fetchCountiesLoop_eq (header :: rows) _ 1 [] rfl]
  simp

/-- An empty decoded array makes `fetchStates` panic in `make`. -/
theorem statesOfData_nil :
    statesOfData [] = .crash "runtime error: makeslice: cap out of range" := by
  simp [statesOfData, makeLocations]

/-- An empty decoded array makes `fetchCounties` panic in `make`. -/
theorem countiesOfData_nil :
    countiesOfData [] = .crash "runtime error: makeslice: cap out of range" := by
  simp [countiesOfData, makeLocations]

/-! ## Claims about the fetchers -/

/-- C1: when the decoded state response is a header row followed by data rows,
`fetchStates` returns one record for each data row of at least three columns,
none for a shorter row, in the order of the rows; the record of a row has kind
"state", identifier `row[2]`, name `row[0]` and population `row[1]`, copied as
they are. -/
theorem fetchStates_records (net : Net) (n : Nat) (header : List String)
    (rows : List (List String)) (h : net.respond n statesURL = .ok (header :: rows)) :
    fetchStates net n =
      .ok ((rows.filter (fun row => decide (3 ≤ row.length))).map
        (fun row => { GeoID := row.getD 2 "", Name := row.getD 0 "", Type_ := "state",
                      Population := row.getD 1 "" })) := by
  simp only [fetchStates, h, statesOfData_cons]
  rfl

theorem fetchStates_records_witness :
    fetchStates (constNet [["NAME", "B01003_001E", "state"], ["Alabama", "5000000", "01"],
        ["note"], ["Alaska", "700000", "02"]]) 0 =
      .ok ((([["Alabama", "5000000", "01"], ["note"], ["Alaska", "700000", "02"]] :
          List (List String)).filter (fun row => decide (3 ≤ row.length))).map
        (fun row => { GeoID := row.getD 2 "", Name := row.getD 0 "", Type_ := "state",
                      Population := row.getD 1 "" })) :=
  fetchStates_records _ 0 _ _ rfl

/-- C2: when the decoded county response is a header row followed by data rows,
`fetchCounties` returns one record for each data row of at least four columns,
none for a shorter row, in the order of the rows; the record of a row has kind
"county", population `row[1]` as it is, and identifier `row[2] ++ row[3]` with
nothing in between. -/
theorem fetchCounties_records (net : Net) (n : Nat) (stateCode : String) (header : List String)
    (rows : List (List String))
    (h : net.respond n (countiesURL stateCode) = .ok (header :: rows)) :
    fetchCounties net n stateCode =
      .ok ((rows.filter (fun row => decide (4 ≤ row.length))).map
        (fun row => { GeoID := row.getD 2 "" ++ row.getD 3 "", Name := TrimSpace (row.getD 0 ""),
                      Type_ := "county", Population := row.getD 1 "" })) := by
  simp only [fetchCounties, h, countiesOfData_cons]
  rfl

theorem fetchCounties_records_witness :
    fetchCounties (constNet [["NAME", "B01003_001E", "state", "county"],
        ["Autauga County, Alabama", "55000", "01", "001"], ["Alabama", "5000000", "01"]]) 1 "01" =
      .ok ((([["Autauga County, Alabama", "55000", "01", "001"], ["Alabama", "5000000", "01"]] :
          List (List String)).filter (fun row => decide (4 ≤ row.length))).map
        (fun row => { GeoID := row.getD 2 "" ++ row.getD 3 "", Name := TrimSpace (row.getD 0 ""),
                      Type_ := "county", Population := row.getD 1 "" })) :=
  fetchCounties_records _ 1 "01" _ _ rfl

/-! ## `strings.TrimSpace` trims -/

theorem char_eq_iff_toNat (c d : Char) : c = d ↔ c.toNat = d.toNat := by
  constructor
  · intro h; rw [h]
  · intro h
    apply Char.ext
    cases c with
    | mk cv cp =>
      cases d with
      | mk dv dp =>
        simp only [Char.toNat] at h
        exact UInt32.ext h

theorem asciiSpace_eq_IsSpace (c : Char) (h : ¬ (c.toNat ≥ 0x80)) : asciiSpace c = IsSpace c := by
  have h1 : c.toNat ≤ 0xFF := by omega
  have e1 : ('\t' : Char).toNat = 9 := rfl
  have e2 : ('\n' : Char).toNat = 10 := rfl
  have e3 : (Char.ofNat 0x0B).toNat = 11 := rfl
  have e4 : (Char.ofNat 0x0C).toNat = 12 := rfl
  have e5 : ('\r' : Char).toNat = 13 := rfl
  have e6 : (' ' : Char).toNat = 32 := rfl
  simp only [asciiSpace, IsSpace, char_eq_iff_toNat, e1, e2, e3, e4, e5, e6, h1, if_true]
  have h85 : ¬ (c.toNat = 0x85) := by omega
  have hA0 : ¬ (c.toNat = 0xA0) := by omega
  simp [h85, hA0]

theorem trimSpaceStop_eq (l : List Char) : trimSpaceStop l = l.dropWhile IsSpace := by
  induction l with
  | nil => rfl
  | cons c r ih =>
    rw [trimSpaceStop]
    by_cases h : c.toNat ≥ 0x80
    · simp [h, TrimRightFunc]
    · rw [if_neg h, asciiSpace_eq_IsSpace c h, ih]
      by_cases hs : IsSpace c = true
      · simp [hs, List.dropWhile_cons]
      · simp [hs, List.dropWhile_cons]

theorem trimSpaceStart_eq (l : List Char) : trimSpaceStart l = TrimFunc IsSpace l := by
  induction l with
  | nil => rfl
  | cons c r ih =>
    rw [trimSpaceStart]
    by_cases h : c.toNat ≥ 0x80
    · simp [h]
    · rw [if_neg h, asciiSpace_eq_IsSpace c h, ih, trimSpaceStop_eq]
      by_cases hs : IsSpace c = true
      · simp [hs, TrimFunc, TrimLeftFunc, List.dropWhile_cons]
      · simp [hs, TrimFunc, TrimLeftFunc, TrimRightFunc, List.dropWhile_cons]

theorem TrimFunc_spec (f : Char → Bool) (l : List Char) :
    ∃ pre suf, l = pre ++ TrimFunc f l ++ suf ∧ (∀ c ∈ pre, f c = true) ∧
      (∀ c ∈ suf, f c = true) ∧ (∀ c, (TrimFunc f l).head? = some c → f c = false) ∧
      (∀ c, (TrimFunc f l).getLast? = some c → f c = false) := by
  have hm : l.dropWhile f = TrimFunc f l ++ ((l.dropWhile f).reverse.takeWhile f).reverse := by
    have := List.takeWhile_append_dropWhile f (l.dropWhile f).reverse
    have h2 := congrArg List.reverse this
    rw [List.reverse_append, List.reverse_reverse] at h2
    exact h2.symm
  have hlast : ∀ c, (TrimFunc f l).getLast? = some c → f c = false := by
    intro c hc
    simp only [TrimFunc, TrimRightFunc, TrimLeftFunc, List.getLast?_reverse] at hc
    have := List.head?_dropWhile_not f (l.dropWhile f).reverse
    rw [hc] at this
    exact this
  refine ⟨l.takeWhile f, ((l.dropWhile f).reverse.takeWhile f).reverse, ?_, ?_, ?_, ?_, hlast⟩
  · rw [List.append_assoc, ← hm, List.takeWhile_append_dropWhile]
  · intro c hc; exact List.mem_takeWhile_imp hc
  · intro c hc; exact List.mem_takeWhile_imp (List.mem_reverse.mp hc)
  · intro c hc
    have hne : TrimFunc f l ≠ [] := by intro h0; rw [h0] at hc; cases hc
    have h1 : (l.dropWhile f).head? = some c := by
      rw [hm, List.head?_append_of_ne_nil _ hne, hc]
    have := List.head?_dropWhile_not f l
    rw [h1] at this
    exact this

/-- The name `TrimSpace` gives: the string between a run of spaces in front and a
run of spaces behind, itself without a space at either end. -/
theorem TrimSpace_spec (s : String) :
    ∃ pre suf, s.data = pre ++ (TrimSpace s).data ++ suf ∧ (∀ c ∈ pre, IsSpace c = true) ∧
      (∀ c ∈ suf, IsSpace c = true) ∧
      (∀ c, (TrimSpace s).data.head? = some c → IsSpace c = false) ∧
      (∀ c, (TrimSpace s).data.getLast? = some c → IsSpace c = false) := by
  have h := TrimFunc_spec IsSpace s.data
  simpa only [TrimSpace, trimSpaceStart_eq] using h

/-- C5: for a county response with a header row, the records of `fetchCounties`
match the rows of at least four columns one to one, and the name of each record
is `row[0]` without its leading and trailing white space: `row[0]` is a run of
white space, then the name, then a run of white space, and the name neither
starts nor ends with a white space character (so what lies between is kept as it
is); for example "Autauga County, Alabama  " gives "Autauga County, Alabama". -/
theorem fetchCounties_name_trimmed (net : Net) (n : Nat) (stateCode : String)
    (header : List String) (rows : List (List String))
    (h : net.respond n (countiesURL stateCode) = .ok (header :: rows)) :
    (∃ locations, fetchCounties net n stateCode = .ok locations ∧
      List.Forall₂
        (fun row loc => ∃ pre suf, (row.getD 0 "").data = pre ++ loc.Name.data ++ suf ∧
          (∀ c ∈ pre, IsSpace c = true) ∧ (∀ c ∈ suf, IsSpace c = true) ∧
          (∀ c, loc.Name.data.head? = some c → IsSpace c = false) ∧
          (∀ c, loc.Name.data.getLast? = some c → IsSpace c = false))
        (rows.filter (fun row => decide (4 ≤ row.length))) locations) ∧
    (countyOfRow ["Autauga County, Alabama  ", "55000", "01", "001"]).Name =
      "Autauga County, Alabama" := by
  refine ⟨⟨(rows.filter (fun row => decide (4 ≤ row.length))).map countyOfRow,
    by simp only [fetchCounties, h, countiesOfData_cons], ?_⟩, by decide⟩
  rw [List.forall₂_map_right_iff, List.forall₂_same]
  intro row _
  exact TrimSpace_spec (row.getD 0 "")

theorem fetchCounties_name_trimmed_witness :
    (∃ locations, fetchCounties (constNet [["NAME", "B01003_001E", "state", "county"],
        ["  Autauga County, Alabama \t", "55000", "01", "001"]]) 1 "01" = .ok locations ∧
      List.Forall₂
        (fun row loc => ∃ pre suf, (row.getD 0 "").data = pre ++ loc.Name.data ++ suf ∧
          (∀ c ∈ pre, IsSpace c = true) ∧ (∀ c ∈ suf, IsSpace c = true) ∧
          (∀ c, loc.Name.data.head? = some c → IsSpace c = false) ∧
          (∀ c, loc.Name.data.getLast? = some c → IsSpace c = false))
        (([["  Autauga County, Alabama \t", "55000", "01", "001"]] : List (List String)).filter
          (fun row => decide (4 ≤ row.length))) locations) ∧
    (countyOfRow ["Autauga County, Alabama  ", "55000", "01", "001"]).Name =
      "Autauga County, Alabama" :=
  fetchCounties_name_trimmed _ 1 "01" _ _ rfl

/-! ## The aggregation in `main` -/

/-- The loop over the states when no county fetch panics: every state adds the
records of its own fetch, in order. -/
theorem countiesLoop_ok (net : Net) :
    ∀ (states locations : List Location) (w : World),
      (∀ p ∈ states.enumFrom w.requests.length, ∀ m,
        fetchCounties net p.1 p.2.GeoID ≠ .crash m) →
      (countiesLoop net states locations w).1 =
        .ok (locations ++ (states.enumFrom w.requests.length).flatMap
          (fun p => countyRecords net p.1 p.2.GeoID)) := by
  intro states
  induction states with
  | nil => intro locations w _; simp [countiesLoop]
  | cons s rest ih =>
    intro locations w hc
    rw [countiesLoop]
    have hrest : ∀ (w1 : World), w1.requests.length = w.requests.length + 1 →
        ∀ p ∈ rest.enumFrom w1.requests.length, ∀ m,
          fetchCounties net p.1 p.2.GeoID ≠ .crash m := by
      intro w1 hw p hp m
      apply hc p _ m
      rw [hw] at hp
      simp [List.enumFrom_cons, hp]
    cases hf : fetchCounties net w.requests.length s.GeoID with
    | ok counties =>
      simp only
      rw [ih _ _ (hrest _ (by simp))]
      simp [List.enumFrom_cons, countyRecords, hf]
    | err e =>
      simp only
      rw [ih _ _ (hrest _ (by simp))]
      simp [List.enumFrom_cons, countyRecords, hf]
    | crash m =>
      exact absurd hf (hc (w.requests.length, s) (by simp [List.enumFrom_cons]) m)

/-- When the state fetch succeeds and no county fetch panics, `main` hands to
`writeCSV` the states followed by the records of each state's county fetch, in
the order of the states; a fetch that returns an error adds nothing. -/
theorem main_written_of_no_crash (net : Net) (fs : FS) (states : List Location)
    (hs : fetchStates net 0 = .ok states)
    (hc : ∀ p ∈ states.enumFrom 1, ∀ m, fetchCounties net p.1 p.2.GeoID ≠ .crash m) :
    (main net fs).written =
      some (states ++ (states.enumFrom 1).flatMap (fun p => countyRecords net p.1 p.2.GeoID)) := by
  have h := countiesLoop_ok net states ([] ++ states)
    { stdout := ["Fetching US Census population data...\n"] ++
        ["Fetched " ++ toString states.length ++ " states\n"], requests := [statesURL] } hc
  simp only [main, hs]
  generalize hr : countiesLoop net states ([] ++ states) _ = r at h ⊢
  obtain ⟨r1, r2⟩ := r
  simp only at h
  subst h
  simp only
  cases writeCSV fs "census_population.csv" _ <;> simp

/-- C3: on the canned service the state fetch succeeds with two states and the
first county fetch succeeds, but the county response of the second state is the
empty array: `fetchCounties` panics there, the process ends with status 2,
`writeCSV` is never called and no file is written, so the records of the other
states are lost. -/
theorem main_empty_county_array_aborts :
    fetchStates cannedNet 0 =
        .ok [{ GeoID := "01", Name := "Alabama", Type_ := "state", Population := "5000000" },
             { GeoID := "02", Name := "Alaska", Type_ := "state", Population := "700000" }] ∧
      fetchCounties cannedNet 1 "01" =
        .ok [{ GeoID := "01001", Name := "Autauga County, Alabama", Type_ := "county",
               Population := "55000" }] ∧
      fetchCounties cannedNet 2 "02" = .crash "runtime error: makeslice: cap out of range" ∧
      (main cannedNet okFS).exitCode = 2 ∧ (main cannedNet okFS).written = none ∧
      (main cannedNet okFS).file = none := by
  refine ⟨?_, ?_, ?_, ?_⟩
  · simp only [fetchStates, cannedNet, statesOfData_cons]; decide
  · simp only [fetchCounties, cannedNet, countiesOfData_cons]; decide
  · simp only [fetchCounties, cannedNet, countiesOfData_nil]
  · simp [main, cannedNet, fetchStates, statesOfData_cons, countiesLoop, fetchCounties,
      countiesOfData_cons, countiesOfData_nil]

/-- C6: when the state fetch does not succeed (it returns an error, or it
panics), `main` never calls `writeCSV` (no records are written and no file is
created), issues no request besides the one for the states, and the process
ends with a status other than 0: status 1 after a returned error. -/
theorem main_state_fetch_fails (net : Net) (fs : FS)
    (h : ∀ states, fetchStates net 0 ≠ .ok states) :
    (main net fs).written = none ∧ (main net fs).file = none ∧
      (main net fs).requests = [statesURL] ∧ (main net fs).exitCode ≠ 0 ∧
      (∀ e, fetchStates net 0 = .err e → (main net fs).exitCode = 1) := by
  cases hf : fetchStates net 0 with
  | ok states => exact absurd hf (h states)
  | err e => simp [main, hf]
  | crash m => simp [main, hf]

theorem main_state_fetch_fails_witness :
    (main failNet okFS).written = none ∧ (main failNet okFS).file = none ∧
      (main failNet okFS).requests = [statesURL] ∧ (main failNet okFS).exitCode ≠ 0 ∧
      (∀ e, fetchStates failNet 0 = .err e → (main failNet okFS).exitCode = 1) :=
  main_state_fetch_fails failNet okFS (fun states => by simp [fetchStates, failNet])

/-- C7: a response body `[]` decodes to the empty array, and on it both
`fetchStates` and `fetchCounties` panic in `make([]Location, 0, len(data)-1)`
instead of returning the empty sequence; on a header-only array both return the
empty sequence. -/
theorem fetch_empty_array_panics :
    fetchStates (constNet []) 0 = .crash "runtime error: makeslice: cap out of range" ∧
      fetchCounties (constNet []) 1 "01" = .crash "runtime error: makeslice: cap out of range" ∧
      fetchStates (constNet [["NAME", "B01003_001E", "state"]]) 0 = .ok [] ∧
      fetchCounties (constNet [["NAME", "B01003_001E", "state", "county"]]) 1 "01" = .ok [] := by
  refine ⟨?_, ?_, ?_, ?_⟩
  · simp only [fetchStates, constNet, statesOfData_nil]
  · simp only [fetchCounties, constNet, countiesOfData_nil]
  · simp only [fetchStates, constNet, statesOfData_cons]; rfl
  · simp only [fetchCounties, constNet, countiesOfData_cons]; rfl

/-! ## Which fields can be empty, and where the identifier comes from -/

theorem TrimSpace_eq_empty_iff (s : String) :
    TrimSpace s = "" ↔ ∀ c ∈ s.data, IsSpace c = true := by
  obtain ⟨pre, suf, hs, hpre, hsuf, -, -⟩ := TrimSpace_spec s
  constructor
  · intro h c hc
    rw [hs, h] at hc
    simp only [String.data, List.append_nil, List.mem_append] at hc
    rcases hc with hc | hc
    · exact hpre c hc
    · exact hsuf c hc
  · intro h
    have hd : s.data.dropWhile IsSpace = [] := List.dropWhile_eq_nil_iff.mpr h
    apply String.ext
    simp only [TrimSpace, trimSpaceStart_eq, TrimFunc, TrimLeftFunc, TrimRightFunc, hd]
    rfl

theorem append_eq_empty_iff (a b : String) : a ++ b = "" ↔ a = "" ∧ b = "" := by
  simp only [String.ext_iff, String.data_append, List.append_eq_nil]

/-- C8, counterexample: a state row with empty name and code columns gives a
state record with empty identifier and name; a county row whose name is white
space and whose code columns are empty gives a county record with empty
identifier and name. -/
theorem emitted_fields_may_be_empty :
    fetchStates (constNet [["NAME", "B01003_001E", "state"], ["", "5000000", ""]]) 0 =
        .ok [{ GeoID := "", Name := "", Type_ := "state", Population := "5000000" }] ∧
      fetchCounties (constNet [["NAME", "B01003_001E", "state", "county"],
          ["  ", "55000", "", ""]]) 1 "01" =
        .ok [{ GeoID := "", Name := "", Type_ := "county", Population := "55000" }] := by
  refine ⟨?_, ?_⟩
  · simp only [fetchStates, constNet, statesOfData_cons]; decide
  · simp only [fetchCounties, constNet, countiesOfData_cons]; decide

/-- C8, amended: every record emitted by `fetchStates` or `fetchCounties` has a
non-empty kind ("state", "county"); its identifier is empty exactly when the
code columns it is built from are empty (`row[2]` for a state, `row[2]` and
`row[3]` for a county), and its name is empty exactly when `row[0]` is empty
(state) or holds white space only (county). -/
theorem emitted_fields_empty_iff (header : List String) (rows : List (List String)) :
    (∃ locations, statesOfData (header :: rows) = .ok locations ∧
      List.Forall₂
        (fun row loc => loc.Type_ = "state" ∧ loc.Type_ ≠ "" ∧
          (loc.GeoID = "" ↔ row.getD 2 "" = "") ∧ (loc.Name = "" ↔ row.getD 0 "" = ""))
        (rows.filter (fun row => decide (3 ≤ row.length))) locations) ∧
    (∃ locations, countiesOfData (header :: rows) = .ok locations ∧
      List.Forall₂
        (fun row loc => loc.Type_ = "county" ∧ loc.Type_ ≠ "" ∧
          (loc.GeoID = "" ↔ row.getD 2 "" = "" ∧ row.getD 3 "" = "") ∧
          (loc.Name = "" ↔ ∀ c ∈ (row.getD 0 "").data, IsSpace c = true))
        (rows.filter (fun row => decide (4 ≤ row.length))) locations) := by
  refine ⟨⟨_, statesOfData_cons header rows, ?_⟩, ⟨_, countiesOfData_cons header rows, ?_⟩⟩
  · rw [List.forall₂_map_right_iff, List.forall₂_same]
    intro row _
    exact ⟨rfl, show ("state" : String) ≠ "" by decide, Iff.rfl, Iff.rfl⟩
  · rw [List.forall₂_map_right_iff, List.forall₂_same]
    intro row _
    exact ⟨rfl, show ("county" : String) ≠ "" by decide, append_eq_empty_iff _ _,
      TrimSpace_eq_empty_iff _⟩

/-- C10, counterexample: asked for the counties of state "01", a response whose
row carries state code "10" gives the identifier "10001", which is not "01"
followed by the county code and does not start with "01". -/
theorem county_identifier_ignores_argument :
    fetchCounties (constNet [["NAME", "B01003_001E", "state", "county"],
        ["Kent County, Delaware", "180000", "10", "001"]]) 1 "01" =
      .ok [{ GeoID := "10001", Name := "Kent County, Delaware", Type_ := "county",
             Population := "180000" }] ∧
    ("10001" : String) ≠ "01" ++ "001" ∧ ¬ ("01".data <+: "10001".data) := by
  refine ⟨?_, by decide, by decide⟩
  simp only [fetchCounties, constNet, countiesOfData_cons]; decide

/-- C10, amended: each record returned by `fetchCounties stateCode` has the
identifier `row[2] ++ row[3]` of its row, built from the state-code column of
the response and not from the argument; for a row whose state-code column equals
`stateCode` this is `stateCode ++ row[3]` and starts with `stateCode`. -/
theorem fetchCounties_identifier (net : Net) (n : Nat) (stateCode : String)
    (header : List String) (rows : List (List String))
    (h : net.respond n (countiesURL stateCode) = .ok (header :: rows)) :
    ∃ locations, fetchCounties net n stateCode = .ok locations ∧
      List.Forall₂
        (fun row loc => loc.GeoID = row.getD 2 "" ++ row.getD 3 "" ∧
          (row.getD 2 "" = stateCode →
            loc.GeoID = stateCode ++ row.getD 3 "" ∧ stateCode.data <+: loc.GeoID.data))
        (rows.filter (fun row => decide (4 ≤ row.length))) locations := by
  refine ⟨(rows.filter (fun row => decide (4 ≤ row.length))).map countyOfRow,
    by simp only [fetchCounties, h, countiesOfData_cons], ?_⟩
  rw [List.forall₂_map_right_iff, List.forall₂_same]
  intro row _
  refine ⟨rfl, fun h2 => ⟨by simp only [countyOfRow, h2], ?_⟩⟩
  simp only [countyOfRow, h2, String.data_append]
  exact List.prefix_append _ _

theorem fetchCounties_identifier_witness :
    ∃ locations, fetchCounties (constNet [["NAME", "B01003_001E", "state", "county"],
        ["Autauga County, Alabama", "55000", "01", "001"]]) 1 "01" = .ok locations ∧
      List.Forall₂
        (fun row loc => loc.GeoID = row.getD 2 "" ++ row.getD 3 "" ∧
          (row.getD 2 "" = "01" →
            loc.GeoID = "01" ++ row.getD 3 "" ∧ "01".data <+: loc.GeoID.data))
        (([["Autauga County, Alabama", "55000", "01", "001"]] : List (List String)).filter
          (fun row => decide (4 ≤ row.length))) locations :=
  fetchCounties_identifier _ 1 "01" _ _ rfl

/-! ## Writing and reading back -/

theorem readCSVAux_quoted (rest : List Char) (row : List String) (rows : List (List String)) :
    ∀ (l acc : List Char),
      readCSVAux (writeQuoted l ++ '"' :: rest) .quoted acc row rows =
        readCSVAux rest .quoteEnd (acc ++ l) row rows := by
  intro l
  induction l with
  | nil => intro acc; simp [writeQuoted, readCSVAux]
  | cons c l ih =>
    intro acc
    by_cases hq : c = '"'
    · subst hq
      simp [writeQuoted, readCSVAux, ih]
    · by_cases hr : c = '\r'
      · subst hr
        simp [writeQuoted, readCSVAux, ih]
      · by_cases hn : c = '\n'
        · subst hn
          simp [writeQuoted, readCSVAux, ih]
        · simp [writeQuoted, readCSVAux, ih, hq, hr, hn]

theorem readCSVAux_unquoted (rest : List Char) (row : List String) (rows : List (List String)) :
    ∀ (l acc : List Char), (∀ c ∈ l, plainChar c = true) →
      readCSVAux (l ++ rest) .unquoted acc row rows =
        readCSVAux rest .unquoted (acc ++ l) row rows := by
  intro l
  induction l with
  | nil => intro acc _; simp
  | cons c l ih =>
    intro acc h
    have hc := h c (List.mem_cons_self _ _)
    simp only [plainChar, Bool.not_eq_true', Bool.or_eq_false_iff, decide_eq_false_iff_not] at hc
    obtain ⟨⟨⟨hn, hr⟩, hq⟩, hcm⟩ := hc
    have hl : ∀ c ∈ l, plainChar c = true := fun d hd => h d (List.mem_cons_of_mem _ hd)
    simp [readCSVAux, hn, hr, hq, hcm, ih _ hl]

theorem plain_of_not_fieldNeedsQuotes (f : String) (h : fieldNeedsQuotes f = false) :
    ∀ c ∈ f.data, plainChar c = true := by
  intro c hc
  unfold fieldNeedsQuotes at h
  split_ifs at h with h1 h2 h3
  · rw [h1] at hc; cases hc
  · rw [Bool.not_eq_true, List.any_eq_false] at h3
    have := h3 c hc
    simpa [plainChar] using this


/-- Reading one written field up to the comma behind it. -/
theorem readCSVAux_field_comma (f : String) (rest : List Char) (row : List String)
    (rows : List (List String)) :
    readCSVAux (writeField f ++ ',' :: rest) .fieldStart [] row rows =
      readCSVAux rest .fieldStart [] (row ++ [f]) rows := by
  cases hq : fieldNeedsQuotes f with
  | true =>
    simp only [writeField, hq, Bool.not_true, Bool.false_eq_true, if_false, List.append_assoc,
      List.singleton_append, List.cons_append, List.nil_append]
    rw [readCSVAux]
    simp only [if_true]
    rw [readCSVAux_quoted]
    simp [readCSVAux]
  | false =>
    have hp := plain_of_not_fieldNeedsQuotes f hq
    simp only [writeField, hq, Bool.not_false, if_true]
    cases hd : f.data with
    | nil =>
      have hf : f = "" := String.ext hd
      simp [readCSVAux, hf]
    | cons c l =>
      rw [hd] at hp
      have hc := hp c (List.mem_cons_self _ _)
      simp only [plainChar, Bool.not_eq_true', Bool.or_eq_false_iff,
        decide_eq_false_iff_not] at hc
      obtain ⟨⟨⟨hn, hr⟩, hq'⟩, hcm⟩ := hc
      have hl : ∀ d ∈ l, plainChar d = true := fun d h => hp d (List.mem_cons_of_mem _ h)
      have hf : f = String.mk (c :: l) := String.ext hd
      rw [List.cons_append, readCSVAux]
      simp only [hq', hcm, hn, hr, if_false, false_and]
      rw [readCSVAux_unquoted _ _ _ _ _ hl]
      simp [readCSVAux, hf]

/-- Reading the last written field of a record up to the line feed behind it. -/
theorem readCSVAux_field_newline (f : String) (rest : List Char) (row : List String)
    (rows : List (List String)) (hrow : row ≠ []) :
    readCSVAux (writeField f ++ '\n' :: rest) .fieldStart [] row rows =
      readCSVAux rest .fieldStart [] [] (rows ++ [row ++ [f]]) := by
  cases hq : fieldNeedsQuotes f with
  | true =>
    simp only [writeField, hq, Bool.not_true, Bool.false_eq_true, if_false, List.append_assoc,
      List.singleton_append, List.cons_append, List.nil_append]
    rw [readCSVAux]
    simp only [if_true]
    rw [readCSVAux_quoted]
    simp [readCSVAux]
  | false =>
    have hp := plain_of_not_fieldNeedsQuotes f hq
    simp only [writeField, hq, Bool.not_false, if_true]
    cases hd : f.data with
    | nil =>
      have hf : f = "" := String.ext hd
      simp [readCSVAux, hf, hrow]
    | cons c l =>
      rw [hd] at hp
      have hc := hp c (List.mem_cons_self _ _)
      simp only [plainChar, Bool.not_eq_true', Bool.or_eq_false_iff,
        decide_eq_false_iff_not] at hc
      obtain ⟨⟨⟨hn, hr⟩, hq'⟩, hcm⟩ := hc
      have hl : ∀ d ∈ l, plainChar d = true := fun d h => hp d (List.mem_cons_of_mem _ h)
      have hf : f = String.mk (c :: l) := String.ext hd
      rw [List.cons_append, readCSVAux]
      simp only [hq', hcm, hn, hr, if_false, false_and]
      rw [readCSVAux_unquoted _ _ _ _ _ hl]
      simp [readCSVAux, hf]

/-- A written record of four fields, laid out. -/
theorem csvWrite_four (a b c d : String) :
    csvWrite [a, b, c, d] =
      writeField a ++ ',' :: (writeField b ++ ',' :: (writeField c ++ ',' ::
        (writeField d ++ ['\n']))) := by
  simp [csvWrite, writeFields]

/-- Reading one written record of four fields. -/
theorem readCSVAux_record (a b c d : String) (rest : List Char) (rows : List (List String)) :
    readCSVAux (csvWrite [a, b, c, d] ++ rest) .fieldStart [] [] rows =
      readCSVAux rest .fieldStart [] [] (rows ++ [[a, b, c, d]]) := by
  rw [csvWrite_four]
  simp only [List.append_assoc, List.cons_append, List.nil_append]
  rw [readCSVAux_field_comma, readCSVAux_field_comma, readCSVAux_field_comma,
    readCSVAux_field_newline _ _ _ _ (by simp)]
  simp

/-- Reading the written rows. -/
theorem readCSVAux_writeRows :
    ∀ (locations : List Location) (rows : List (List String)),
      readCSVAux (writeRows locations) .fieldStart [] [] rows =
        some (rows ++ locations.map
          (fun loc => [loc.GeoID, loc.Name, loc.Type_, loc.Population])) := by
  intro locations
  induction locations with
  | nil => intro rows; simp [writeRows, readCSVAux]
  | cons loc locations ih =>
    intro rows
    rw [writeRows, readCSVAux_record, ih]
    simp

/-- Reading back what `csvText` gives. -/
theorem readCSV_csvText (locations : List Location) :
    readCSV (csvText locations) =
      some (["geoid", "name", "type", "population"] ::
        locations.map (fun loc => [loc.GeoID, loc.Name, loc.Type_, loc.Population])) := by
  simp only [readCSV, csvText]
  rw [readCSVAux_record, readCSVAux_writeRows]
  simp

/-- C4: whatever the fields of the records hold (commas, double quotes and line
breaks included), the text that `writeCSV` writes is read back by the
quote-aware reader as the header row `geoid, name, type, population` followed by
one row per record, in the order of the records, the row of a record being
exactly its identifier, name, kind and population. -/
theorem writeCSV_round_trip (fs : FS) (filename : String) (locations : List Location)
    (text : String) (h : writeCSV fs filename locations = .ok text) :
    readCSV text =
      some (["geoid", "name", "type", "population"] ::
        locations.map (fun loc => [loc.GeoID, loc.Name, loc.Type_, loc.Population])) := by
  unfold writeCSV at h
  cases hc : fs.create filename with
  | some e => rw [hc] at h; cases h
  | none =>
    rw [hc] at h
    cases h
    exact readCSV_csvText locations

theorem writeCSV_round_trip_witness :
    readCSV (csvText [autauga, awkward]) =
      some (["geoid", "name", "type", "population"] ::
        [autauga, awkward].map (fun loc => [loc.GeoID, loc.Name, loc.Type_, loc.Population])) :=
  writeCSV_round_trip okFS "census_population.csv" _ _ rfl

/-! ## Lines of the written text -/

theorem splitLines_append (rest : List Char) :
    ∀ (l cur : List Char), '\n' ∉ l →
      splitLines (l ++ '\n' :: rest) cur = (cur ++ l) :: splitLines rest [] := by
  intro l
  induction l with
  | nil => intro cur _; simp [splitLines]
  | cons c l ih =>
    intro cur h
    have hc : c ≠ '\n' := fun e => h (by simp [e])
    have hl : '\n' ∉ l := fun e => h (List.mem_cons_of_mem _ e)
    simp [splitLines, hc, ih _ hl]

theorem mem_writeQuoted {c : Char} :
    ∀ (l : List Char), c ∈ writeQuoted l → c ∈ l ∨ c = '"' := by
  intro l
  induction l with
  | nil => intro h; simp [writeQuoted] at h
  | cons d l ih =>
    intro h
    rw [writeQuoted, List.mem_append] at h
    rcases h with h | h
    · split_ifs at h with h1 h2 h3
      · right; simp at h; exact h
      · left; simp at h; simp [h, h2]
      · left; simp at h; simp [h, h3]
      · left; simp at h; simp [h]
    · rcases ih h with h | h
      · left; exact List.mem_cons_of_mem _ h
      · right; exact h

theorem newline_not_mem_writeField (f : String) (h : '\n' ∉ f.data) : '\n' ∉ writeField f := by
  unfold writeField
  split_ifs
  · exact h
  · intro hm
    simp only [List.mem_append, List.mem_singleton] at hm
    rcases hm with (hm | hm) | hm
    · exact absurd hm (by decide)
    · rcases mem_writeQuoted _ hm with h1 | h1
      · exact h h1
      · exact absurd h1 (by decide)
    · exact absurd hm (by decide)

theorem newline_not_mem_writeFields :
    ∀ (record : List String) (n : Nat), (∀ f ∈ record, '\n' ∉ f.data) →
      '\n' ∉ writeFields n record := by
  intro record
  induction record with
  | nil => intro n _; simp [writeFields]
  | cons f record ih =>
    intro n h
    rw [writeFields]
    intro hm
    simp only [List.mem_append] at hm
    rcases hm with (hm | hm) | hm
    · split_ifs at hm
      · simp at hm
      · simp at hm
    · exact newline_not_mem_writeField f (h f (List.mem_cons_self _ _)) hm
    · exact ih (n + 1) (fun g hg => h g (List.mem_cons_of_mem _ hg)) hm

theorem splitLines_writeRows :
    ∀ (locations : List Location), (∀ loc ∈ locations, singleLine loc) →
      splitLines (writeRows locations) [] =
        locations.map
          (fun loc => writeFields 0 [loc.GeoID, loc.Name, loc.Type_, loc.Population]) := by
  intro locations
  induction locations with
  | nil => intro _; simp [writeRows, splitLines]
  | cons loc locations ih =>
    intro h
    obtain ⟨h1, h2, h3, h4⟩ := h loc (List.mem_cons_self _ _)
    have hn : '\n' ∉ writeFields 0 [loc.GeoID, loc.Name, loc.Type_, loc.Population] := by
      apply newline_not_mem_writeFields
      intro f hf
      simp only [List.mem_cons, List.mem_singleton, List.not_mem_nil, or_false] at hf
      rcases hf with rfl | rfl | rfl | rfl <;> assumption
    rw [writeRows, csvWrite, List.append_assoc, List.singleton_append, splitLines_append _ _ _ hn,
      ih (fun l hl => h l (List.mem_cons_of_mem _ hl))]
    simp

theorem writeRows_getLast : ∀ (locations : List Location) (pre : List Char),
    (pre ++ ['\n'] ++ writeRows locations).getLast? = some '\n' := by
  intro locations
  induction locations with
  | nil => intro pre; simp [writeRows]
  | cons loc locations ih =>
    intro pre
    rw [writeRows, csvWrite]
    have := ih (pre ++ ['\n'] ++ writeFields 0 [loc.GeoID, loc.Name, loc.Type_, loc.Population])
    simpa only [List.append_assoc] using this

/-- C9, amended: when no field of the records holds a line feed, the text that
`writeCSV` writes consists of exactly one line per record after the header line
(N+1 lines for N records), the lines being the encoded rows in order, and the
text ends with a line feed. -/
theorem csvText_lines (locations : List Location) (h : ∀ loc ∈ locations, singleLine loc) :
    splitLines (csvText locations).data [] =
        writeFields 0 ["geoid", "name", "type", "population"] ::
          locations.map
            (fun loc => writeFields 0 [loc.GeoID, loc.Name, loc.Type_, loc.Population]) ∧
      (splitLines (csvText locations).data []).length = locations.length + 1 ∧
      (csvText locations).data.getLast? = some '\n' := by
  have hh : '\n' ∉ writeFields 0 ["geoid", "name", "type", "population"] := by decide
  have e : splitLines (csvText locations).data [] =
        writeFields 0 ["geoid", "name", "type", "population"] ::
          locations.map
            (fun loc => writeFields 0 [loc.GeoID, loc.Name, loc.Type_, loc.Population]) := by
    simp only [csvText, csvWrite]
    rw [List.append_assoc, List.singleton_append, splitLines_append _ _ _ hh,
      splitLines_writeRows _ h]
    simp
  refine ⟨e, by rw [e]; simp, ?_⟩
  simp only [csvText, csvWrite]
  exact writeRows_getLast _ _

/-- C9, counterexample: one record whose name holds a line feed is written as a
quoted field with the line feed inside, so the text of this single record has
three lines, not two. -/
theorem csvText_line_feed_in_field :
    splitLines (csvText [twoLines]).data [] =
      ["geoid,name,type,population".data, "01,\"Ala".data, "bama\",state,5000000".data] ∧
    (splitLines (csvText [twoLines]).data []).length ≠ [twoLines].length + 1 := by
  decide

theorem csvText_lines_witness :
    splitLines (csvText [autauga]).data [] =
        writeFields 0 ["geoid", "name", "type", "population"] ::
          [autauga].map
            (fun loc => writeFields 0 [loc.GeoID, loc.Name, loc.Type_, loc.Population]) ∧
      (splitLines (csvText [autauga]).data []).length = [autauga].length + 1 ∧
      (csvText [autauga]).data.getLast? = some '\n' :=
  csvText_lines [autauga] (by decide)

end Census
